import Mathlib

set_option maxRecDepth 10000

/-!
Verification of `pdf_enumerator.py`: a batch processor that appends a
page-number footer to every page of each PDF found in configured folders.

The embedding models:
  * `NumberPDF` (the fpdf subclass): a configuration record whose `footer`
    hook draws `str(page_no())` in a cell at `y = -15`;
  * pages as lists of draw operations, where pypdf's
    `PageObject.merge_page(other)` appends `other`'s content on top;
  * `_merge_pdfs` as an index-driven loop that reads `reader.pages[index]`,
    merges the numbering page into it in place, and appends it to the writer;
  * the filesystem as a finite map from path strings to page lists, plus a
    set of directories, on which `_enumerate_file`, `_save_pdf`,
    `os.makedirs` and `os.remove` act;
  * `os.path` primitives (`join`, `dirname`, `basename`, `splitext`) on
    strings, following posixpath;
  * `glob.glob(folder + "/*.pdf")` as a filter over directory entries;
  * `hashlib.sha256(...).hexdigest()` as a full SHA-256 implementation over
    byte lists, validated on FIPS 180-4 test vectors.
-/

namespace PdfEnum

/-- The `align` argument of fpdf cells: `Literal["R", "L", "C"]`. -/
inductive Align where
  | R : Align
  | L : Align
  | C : Align
deriving DecidableEq, Repr

/-- One drawing operation on a page.  `cell` mirrors
`self.set_y(-15); self.cell(0, 10, text, align=...)` from `NumberPDF.footer`
together with the active font; `raw` stands for arbitrary pre-existing
content of a source page. -/
inductive DrawOp where
  | cell (y : Int) (w h : Nat) (text : String) (align : Align)
      (fontFamily : String) (fontSize : Nat) : DrawOp
  | raw (data : Nat) : DrawOp
deriving DecidableEq, Repr

/-- A page is its ordered list of drawing operations. -/
abbrev Page := List DrawOp

/-- The `NumberPDF(FPDF)` class: configuration held by the generator.
Defaults are those of `NumberPDF.__init__`: `align="C"`,
`font_family="Arial"`, `font_size=14`. -/
structure NumberPDF where
  align : Align := Align.C
  font_family : String := "Arial"
  font_size : Nat := 14
deriving DecidableEq, Repr

/-- `NumberPDF.footer`: on the page numbered `pageNo` (1-based, fpdf's
`self.page_no()`), draw `str(page_no)` in a width-0, height-10 cell at
`y = -15`, with the configured alignment and font. -/
def NumberPDF.footerOp (cfg : NumberPDF) (pageNo : Nat) : DrawOp :=
  DrawOp.cell (-15) 0 10 (toString pageNo) cfg.align cfg.font_family cfg.font_size

/-- The document produced by adding `pageCount` blank pages to a `NumberPDF`
and serializing it: page `i` (0-based) carries exactly the footer of page
number `i + 1`. -/
def NumberPDF.render (cfg : NumberPDF) (pageCount : Nat) : List Page :=
  (List.range pageCount).map (fun i => [cfg.footerOp (i + 1)])

/-- The `NumberPDF(font_size=12)` instance built by
`_make_temp_enumerated_pdf`: only `font_size` is overridden, `align` and
`font_family` keep their defaults. -/
def make_temp_config : NumberPDF := { font_size := 12 }

/-- The loop body of `_merge_pdfs`:
`for index, page in enumerate(temp_reader.pages): input_page = reader.pages[index];
input_page.merge_page(page); merge_writer.add_page(input_page)`.
`readerPages` is the in-memory page list of `reader` (threaded through
because `merge_page` mutates `input_page` in place); the result is
`(reader pages after the loop, writer pages)`.  `none` models the
`IndexError` raised when `reader.pages[index]` is out of bounds. -/
def mergeLoop : List Page → List Page → Nat → Option (List Page × List Page)
  | readerPages, [], _ => some (readerPages, [])
  | readerPages, page :: rest, index =>
    match readerPages.get? index with
    | none => none
    | some inputPage =>
      let merged := inputPage ++ page
      match mergeLoop (readerPages.set index merged) rest (index + 1) with
      | none => none
      | some (rp, wp) => some (rp, merged :: wp)

/-- `_merge_pdfs(reader, temp_filepath)` after `temp_reader` has been read:
run the merge loop from index 0. -/
def merge_pdfs (readerPages tempPages : List Page) : Option (List Page × List Page) :=
  mergeLoop readerPages tempPages 0

/-- `get?` at the boundary of an append: the element at index `pre.length`
of `pre ++ l` is the head of `l`. -/
lemma get?_append_length (pre l : List Page) :
    (pre ++ l).get? pre.length = l.get? 0 := by
  induction pre with
  | nil => rfl
  | cons a pre ih => simp only [List.cons_append, List.length_cons, List.get?_cons_succ, ih]

/-- `set` at the boundary of an append: setting index `pre.length` of
`pre ++ l` rewrites the head of `l`. -/
lemma set_append_length (pre l : List Page) (a : Page) :
    (pre ++ l).set pre.length a = pre ++ l.set 0 a := by
  induction pre with
  | nil => rfl
  | cons b pre ih => simp only [List.cons_append, List.length_cons, List.set_cons_succ, ih]

/-- Full specification of the merge loop when the numbering document has
exactly as many pages as remain in the reader: every page is found, each
reader page is replaced in place by itself with the numbering page drawn on
top, and the writer receives exactly those merged pages in order. -/
lemma mergeLoop_spec (temp : List Page) :
    ∀ pre suf : List Page, suf.length = temp.length →
    mergeLoop (pre ++ suf) temp pre.length =
      some (pre ++ List.zipWith (fun p q => p ++ q) suf temp,
            List.zipWith (fun p q => p ++ q) suf temp) := by
  induction temp with
  | nil =>
    intro pre suf hlen
    have : suf = [] := List.length_eq_zero.mp hlen
    subst this
    simp [mergeLoop]
  | cons t ts ih =>
    intro pre suf hlen
    cases suf with
    | nil => simp at hlen
    | cons s ss =>
      have hlen' : ss.length = ts.length := by simpa using hlen
      have hget : (pre ++ s :: ss).get? pre.length = some s :=
        get?_append_length pre (s :: ss)
      have hset : (pre ++ s :: ss).set pre.length (s ++ t) = pre ++ (s ++ t) :: ss :=
        set_append_length pre (s :: ss) (s ++ t)
      have hrearr : pre ++ (s ++ t) :: ss = (pre ++ [s ++ t]) ++ ss := by simp
      have hlen2 : (pre ++ [s ++ t]).length = pre.length + 1 := by simp
      have hrec := ih (pre ++ [s ++ t]) ss hlen'
      rw [hlen2] at hrec
      simp only [mergeLoop, hget, hset, hrearr, hrec]
      simp [List.zipWith]

/-- `_merge_pdfs` on a numbering document of matching length: succeeds, the
reader's pages are mutated into the merged pages, and the writer holds the
same merged pages. -/
lemma merge_pdfs_eq (readerPages tempPages : List Page)
    (h : tempPages.length = readerPages.length) :
    merge_pdfs readerPages tempPages =
      some (List.zipWith (fun p q => p ++ q) readerPages tempPages,
            List.zipWith (fun p q => p ++ q) readerPages tempPages) := by
  have := mergeLoop_spec tempPages [] readerPages h.symm
  simpa [merge_pdfs] using this

/-- The rendered numbering document has exactly the requested page count. -/
lemma render_length (cfg : NumberPDF) (n : Nat) :
    (cfg.render n).length = n := by
  simp [NumberPDF.render]

/-- Page `i` of the rendered numbering document is a single footer cell
labelled `toString (i + 1)`. -/
lemma render_get? (cfg : NumberPDF) (n i : Nat) (h : i < n) :
    (cfg.render n).get? i = some [cfg.footerOp (i + 1)] := by
  simp [NumberPDF.render, List.getElem?_range, h]

/-- Index of the last occurrence of `c` in `l`, if any (Python `str.rfind`,
with `none` for the `-1` case). -/
def lastIndexOf (c : Char) : List Char → Option Nat
  | [] => none
  | x :: xs =>
    match lastIndexOf c xs with
    | some i => some (i + 1)
    | none => if x = c then some 0 else none

/-- Start of the final path component: one past the last `/`, or `0` when
there is no `/` (posixpath's `p.rfind('/') + 1`). -/
def basenameStart (l : List Char) : Nat :=
  match lastIndexOf '/' l with
  | none => 0
  | some i => i + 1

/-- `os.path.splitext` (posixpath): split at the last dot, provided it lies
after the last `/` and the final component has a non-dot character before
it (leading dots of a hidden file never start an extension). -/
def splitext (p : String) : String × String :=
  let l := p.data
  let s := basenameStart l
  match lastIndexOf '.' l with
  | none => (p, "")
  | some d =>
    if s ≤ d ∧ ((l.drop s).take (d - s)).any (fun c => c ≠ '.') then
      (String.mk (l.take d), String.mk (l.drop d))
    else (p, "")

/-- `os.path.basename` (posixpath): everything after the last `/`. -/
def basename (p : String) : String :=
  String.mk (p.data.drop (basenameStart p.data))

/-- `os.path.dirname` (posixpath): everything up to the last `/`, with
trailing slashes stripped unless the head is empty or all slashes. -/
def dirname (p : String) : String :=
  let head := p.data.take (basenameStart p.data)
  if head ≠ [] ∧ head.any (fun c => c ≠ '/') then
    String.mk ((head.reverse.dropWhile (fun c => c = '/')).reverse)
  else
    String.mk head

/-- `pre` is an initial run of the characters of `s`. -/
def strStartsWith (s pre : String) : Bool :=
  decide (s.data.take pre.data.length = pre.data)

/-- `suf` is a final run of the characters of `s`. -/
def strEndsWith (s suf : String) : Bool :=
  decide (s.data.reverse.take suf.data.length = suf.data.reverse)

/-- `os.path.join a b` (posixpath, two arguments): `b` if it is absolute,
else `a ++ b` when `a` is empty or ends in `/`, else `a ++ "/" ++ b`. -/
def path_join (a b : String) : String :=
  if strStartsWith b "/" then b
  else if a = "" ∨ strEndsWith a "/" then a ++ b
  else a ++ "/" ++ b

/-- The temporary numbering file path of `_make_temp_enumerated_pdf`:
`f"{os.path.splitext(filepath)[0]}_temp_enumerated.pdf"`. -/
def temp_filepath (filepath : String) : String :=
  (splitext filepath).1 ++ "_temp_enumerated.pdf"

/-- The results directory of `_save_pdf`:
`os.path.join(os.path.dirname(filepath), "results")`. -/
def result_dir (filepath : String) : String :=
  path_join (dirname filepath) "results"

/-- The result file path of `_save_pdf`:
`os.path.join(result_dir, os.path.splitext(os.path.basename(filepath))[0] + "_enumerated.pdf")`. -/
def result_filepath (filepath : String) : String :=
  path_join (result_dir filepath)
    ((splitext (basename filepath)).1 ++ "_enumerated.pdf")

/-- The glob component match for the pattern `*.pdf`: `fnmatch` demands the
name end in `.pdf`, and `glob` skips hidden entries because the pattern does
not itself start with a dot. -/
def globMatchPdf (name : String) : Bool :=
  !strStartsWith name "." && strEndsWith name ".pdf"

/-- `_find_all_files`: `glob.glob(os.path.join(folder_path, "*.pdf"))` over a
folder whose entry names are `entries` — the matching names, each joined to
the folder path, in the order the filesystem lists them. -/
def find_all_files (folder_path : String) (entries : List String) : List String :=
  (entries.filter globMatchPdf).map (fun name => path_join folder_path name)

/-- The filesystem visible to the processor: PDF files as a finite map from
path to page list, plus the set of existing directories. -/
structure FS where
  files : List (String × List Page)
  dirs : List String
deriving DecidableEq, Repr

/-- First binding for path `p` in an association list of files. -/
def lookupA : List (String × List Page) → String → Option (List Page)
  | [], _ => none
  | e :: es, p => if e.1 = p then some e.2 else lookupA es p

/-- Drop every binding for path `p` from an association list of files. -/
def removeA : List (String × List Page) → String → List (String × List Page)
  | [], _ => []
  | e :: es, p => if e.1 = p then removeA es p else e :: removeA es p

/-- Read the document stored at `p`, if any (`PdfReader(p)`). -/
def FS.lookup (fs : FS) (p : String) : Option (List Page) :=
  lookupA fs.files p

/-- Write the document `d` at `p`, replacing any previous file (opening with
mode `"wb"` truncates and rewrites). -/
def FS.write (fs : FS) (p : String) (d : List Page) : FS :=
  { fs with files := (p, d) :: removeA fs.files p }

/-- `os.remove p`: drop the file at `p`. -/
def FS.remove (fs : FS) (p : String) : FS :=
  { fs with files := removeA fs.files p }

/-- Record directory `d` as existing (the state change of `os.makedirs`). -/
def FS.addDir (fs : FS) (d : String) : FS :=
  if d ∈ fs.dirs then fs else { fs with dirs := d :: fs.dirs }

/-- `os.makedirs(d, exist_ok=...)`: raises `FileExistsError` when `d`
already exists and `exist_ok` is false; otherwise ensures `d` exists. -/
def FS.makedirs (fs : FS) (d : String) (exist_ok : Bool) : Except Unit FS :=
  if d ∈ fs.dirs ∧ exist_ok = false then Except.error ()
  else Except.ok (fs.addDir d)

lemma lookupA_removeA (es : List (String × List Page)) (p q : String) :
    lookupA (removeA es p) q = if q = p then none else lookupA es q := by
  induction es with
  | nil => simp [removeA, lookupA]
  | cons e es ih =>
    by_cases hqp : q = p
    · subst hqp
      by_cases he : e.1 = q
      · simp [removeA, he, ih]
      · simp [removeA, lookupA, he, ih]
    · by_cases he : e.1 = p
      · have hq : ¬ e.1 = q := fun h2 => hqp (h2.symm.trans he)
        have hpq : ¬ p = q := fun h2 => hqp h2.symm
        simp [removeA, lookupA, he, hq, ih, hqp, hpq]
      · simp [removeA, lookupA, he, ih, hqp]

lemma lookup_write_self (fs : FS) (p : String) (d : List Page) :
    (fs.write p d).lookup p = some d := by
  simp [FS.write, FS.lookup, lookupA]

lemma lookup_write_ne (fs : FS) (p q : String) (d : List Page) (h : q ≠ p) :
    (fs.write p d).lookup q = fs.lookup q := by
  have hpq : ¬ p = q := fun h2 => h h2.symm
  simp [FS.write, FS.lookup, lookupA, hpq, lookupA_removeA, h]

lemma lookup_remove_self (fs : FS) (p : String) :
    (fs.remove p).lookup p = none := by
  simp [FS.remove, FS.lookup, lookupA_removeA]

lemma lookup_remove_ne (fs : FS) (p q : String) (h : q ≠ p) :
    (fs.remove p).lookup q = fs.lookup q := by
  simp [FS.remove, FS.lookup, lookupA_removeA, h]

lemma lookup_addDir (fs : FS) (d p : String) :
    (fs.addDir d).lookup p = fs.lookup p := by
  by_cases h : d ∈ fs.dirs <;> simp [FS.addDir, FS.lookup, h]

/-- The stage of `_enumerate_file` at which an exception escapes. -/
inductive Stage where
  | readError : Stage
  | mergeError : Stage
  | indexError : Stage
  | saveError : Stage
  | hashError : Stage
deriving DecidableEq, Repr

/-- `_save_pdf(merge_writer, filepath)`: create the results directory with
`exist_ok=True`, then write the writer's pages at the result path, returning
it. -/
def save_pdf (fs : FS) (writerPages : List Page) (filepath : String) :
    Except Unit (FS × String) :=
  match fs.makedirs (result_dir filepath) true with
  | Except.error e => Except.error e
  | Except.ok fs₁ =>
      Except.ok (fs₁.write (result_filepath filepath) writerPages, result_filepath filepath)

/-- `_enumerate_file(filepath)` as a state transformer on the filesystem:
read the source, write the temporary numbering document, read it back and
merge, `os.remove` the temporary file, save the result, then hash the
original and result files for the log.  `mergeOk` and `saveOk` inject the
exception the merge or save step may raise (an error leaves the filesystem
as it stands at that point); `Stage.indexError` is the `IndexError` of
`reader.pages[index]` in `_merge_pdfs`. -/
def enumerate_file (fs : FS) (filepath : String) (mergeOk saveOk : Bool) :
    Except (Stage × FS) FS :=
  match fs.lookup filepath with
  | none => Except.error (Stage.readError, fs)
  | some readerPages =>
    let numbering := NumberPDF.render make_temp_config readerPages.length
    let fs₁ := fs.write (temp_filepath filepath) numbering
    if mergeOk = false then Except.error (Stage.mergeError, fs₁)
    else
      match fs₁.lookup (temp_filepath filepath) with
      | none => Except.error (Stage.readError, fs₁)
      | some tempPages =>
        match merge_pdfs readerPages tempPages with
        | none => Except.error (Stage.indexError, fs₁)
        | some rw =>
          let fs₂ := fs₁.remove (temp_filepath filepath)
          if saveOk = false then Except.error (Stage.saveError, fs₂)
          else
            match save_pdf fs₂ rw.2 filepath with
            | Except.error _ => Except.error (Stage.saveError, fs₂)
            | Except.ok fsr =>
              match fsr.1.lookup filepath, fsr.1.lookup fsr.2 with
              | some _, some _ => Except.ok fsr.1
              | _, _ => Except.error (Stage.hashError, fsr.1)

lemma lookup_write_cases (fs : FS) (p q : String) (d : List Page) :
    (fs.write p d).lookup q = if q = p then some d else fs.lookup q := by
  by_cases h : q = p
  · subst h
    simp [lookup_write_self]
  · simp [lookup_write_ne fs p q d h, h]

/-- `os.makedirs(d, exist_ok=True)` never raises. -/
lemma makedirs_exist_ok (fs : FS) (d : String) :
    fs.makedirs d true = Except.ok (fs.addDir d) := by
  simp [FS.makedirs]

/-- Evaluation of a fault-free `_enumerate_file` run on a readable source:
the temporary numbering file is written and removed, the results directory
is ensured, and the merged pages land at the result path. -/
lemma enumerate_file_ok (fs : FS) (fp : String) (reader : List Page)
    (hsrc : fs.lookup fp = some reader)
    (htemp : temp_filepath fp ≠ fp) :
    enumerate_file fs fp true true =
      Except.ok
        ((((fs.write (temp_filepath fp)
              (NumberPDF.render make_temp_config reader.length)).remove
            (temp_filepath fp)).addDir (result_dir fp)).write (result_filepath fp)
          (List.zipWith (fun p q => p ++ q) reader
            (NumberPDF.render make_temp_config reader.length))) := by
  have hmerge := merge_pdfs_eq reader (NumberPDF.render make_temp_config reader.length)
    (render_length make_temp_config reader.length)
  have hfp : fp ≠ temp_filepath fp := Ne.symm htemp
  have hA :
      ((((fs.write (temp_filepath fp)
            (NumberPDF.render make_temp_config reader.length)).remove
          (temp_filepath fp)).addDir (result_dir fp)).lookup fp) = some reader := by
    rw [lookup_addDir, lookup_remove_ne _ _ _ hfp,
      lookup_write_ne _ _ _ _ hfp, hsrc]
  have hB :
      ∃ v, (((((fs.write (temp_filepath fp)
              (NumberPDF.render make_temp_config reader.length)).remove
            (temp_filepath fp)).addDir (result_dir fp)).write (result_filepath fp)
            (List.zipWith (fun p q => p ++ q) reader
              (NumberPDF.render make_temp_config reader.length))).lookup fp) = some v := by
    rw [lookup_write_cases]
    by_cases hres : fp = result_filepath fp
    · exact ⟨_, by rw [if_pos hres]⟩
    · exact ⟨reader, by rw [if_neg hres, hA]⟩
  obtain ⟨v, hv⟩ := hB
  simp [enumerate_file, hsrc, lookup_write_self, hmerge, save_pdf,
    makedirs_exist_ok, hv]

lemma get?_zipWith (f : Page → Page → Page) :
    ∀ (l1 l2 : List Page) (i : Nat),
      (List.zipWith f l1 l2).get? i =
        match l1.get? i, l2.get? i with
        | some a, some b => some (f a b)
        | _, _ => none := by
  intro l1
  induction l1 with
  | nil => intro l2 i; cases l2 <;> cases i <;> rfl
  | cons a l1 ih =>
    intro l2 i
    cases l2 with
    | nil =>
      cases i with
      | zero => rfl
      | succ j => cases h1 : (a :: l1).get? (j + 1) <;> simp [h1]
    | cons b l2 => cases i with
      | zero => rfl
      | succ j => simpa using ih l2 j

/-- The failing-merge run stops right after the numbering document has been
generated and written: the error state is the filesystem with the rendered
numbering document at the temporary path. -/
lemma enumerate_file_merge_fail (fs : FS) (fp : String) (reader : List Page)
    (hsrc : fs.lookup fp = some reader) :
    enumerate_file fs fp false true =
      Except.error (Stage.mergeError,
        fs.write (temp_filepath fp) (NumberPDF.render make_temp_config reader.length)) := by
  simp [enumerate_file, hsrc]

/-- The failing-save run stops right after `os.remove` has deleted the
temporary file: the error state is the filesystem after the temp write and
removal. -/
lemma enumerate_file_save_fail (fs : FS) (fp : String) (reader : List Page)
    (hsrc : fs.lookup fp = some reader) :
    enumerate_file fs fp true false =
      Except.error (Stage.saveError,
        (fs.write (temp_filepath fp)
            (NumberPDF.render make_temp_config reader.length)).remove
          (temp_filepath fp)) := by
  have hmerge := merge_pdfs_eq reader (NumberPDF.render make_temp_config reader.length)
    (render_length make_temp_config reader.length)
  simp [enumerate_file, hsrc, lookup_write_self, hmerge]

/-- C1: For every source document with N pages, `enumerate_file` produces a
numbering document with exactly N pages and a merged output document with
exactly N pages, in the same order as the source, where the footer label
drawn on the page at position i (1-based) is the decimal string of i. -/
theorem C1_page_counts_and_footer_labels (fs : FS) (fp : String) (reader : List Page)
    (hsrc : fs.lookup fp = some reader)
    (htemp : temp_filepath fp ≠ fp) :
    (NumberPDF.render make_temp_config reader.length).length = reader.length ∧
    ∃ fsOut merged, enumerate_file fs fp true true = Except.ok fsOut ∧
      fsOut.lookup (result_filepath fp) = some merged ∧
      merged.length = reader.length ∧
      ∀ i : Nat, i < reader.length →
        ∃ pi, reader.get? i = some pi ∧
          merged.get? i =
            some (pi ++ [DrawOp.cell (-15) 0 10 (toString (i + 1)) Align.C "Arial" 12]) := by
  refine ⟨render_length make_temp_config reader.length, ?_⟩
  refine ⟨_, _, enumerate_file_ok fs fp reader hsrc htemp, lookup_write_self _ _ _, ?_, ?_⟩
  · rw [List.length_zipWith, render_length]
    exact Nat.min_self _
  · intro i hi
    have hpi : reader.get? i = some (reader.get ⟨i, hi⟩) := List.get?_eq_get hi
    refine ⟨reader.get ⟨i, hi⟩, hpi, ?_⟩
    rw [get?_zipWith, hpi, render_get? make_temp_config reader.length i hi]
    rfl

/-- C1 witness: a three-page document with distinct raw contents. -/
theorem C1_page_counts_and_footer_labels_witness :
    (NumberPDF.render make_temp_config 3).length = 3 ∧
    ∃ fsOut merged,
      enumerate_file ⟨[("d/a.pdf", [[DrawOp.raw 0], [DrawOp.raw 1], [DrawOp.raw 2]])], []⟩
          "d/a.pdf" true true = Except.ok fsOut ∧
      fsOut.lookup (result_filepath "d/a.pdf") = some merged ∧
      merged.length = 3 ∧
      ∀ i : Nat, i < 3 →
        ∃ pi, [[DrawOp.raw 0], [DrawOp.raw 1], [DrawOp.raw 2]].get? i = some pi ∧
          merged.get? i =
            some (pi ++ [DrawOp.cell (-15) 0 10 (toString (i + 1)) Align.C "Arial" 12]) := by
  have h := C1_page_counts_and_footer_labels
    ⟨[("d/a.pdf", [[DrawOp.raw 0], [DrawOp.raw 1], [DrawOp.raw 2]])], []⟩
    "d/a.pdf" [[DrawOp.raw 0], [DrawOp.raw 1], [DrawOp.raw 2]]
    (by decide) (by decide)
  simpa using h

/-- C2 counterexample: on a one-page source document, the merge loop of
`_merge_pdfs` mutates the in-memory source page in place
(`input_page.merge_page(page)`), so after the loop the reader's page list is
no longer the one read from the file — the claim that no step modifies any
in-memory source page is false. -/
theorem C2_counterexample_merge_mutates_source_page :
    (merge_pdfs [[DrawOp.raw 0]] (NumberPDF.render make_temp_config 1)).map
        (fun rw => rw.1) ≠ some [[DrawOp.raw 0]] := by
  decide

/-- C2 (amended): the source file on disk is never modified by the per-file
pipeline, but the merge step mutates every in-memory source page in place,
replacing it by itself with the corresponding numbering page drawn on top
(the merged output aliases exactly these mutated pages). -/
theorem C2_amended_disk_source_immutable_memory_pages_mutated
    (fs : FS) (fp : String) (reader : List Page)
    (hsrc : fs.lookup fp = some reader)
    (htemp : temp_filepath fp ≠ fp)
    (hres : fp ≠ result_filepath fp) :
    (∃ fsOut, enumerate_file fs fp true true = Except.ok fsOut ∧
        fsOut.lookup fp = some reader) ∧
    merge_pdfs reader (NumberPDF.render make_temp_config reader.length) =
      some (List.zipWith (fun p q => p ++ q) reader
              (NumberPDF.render make_temp_config reader.length),
            List.zipWith (fun p q => p ++ q) reader
              (NumberPDF.render make_temp_config reader.length)) := by
  constructor
  · refine ⟨_, enumerate_file_ok fs fp reader hsrc htemp, ?_⟩
    rw [lookup_write_ne _ _ _ _ hres, lookup_addDir,
      lookup_remove_ne _ _ _ (Ne.symm htemp),
      lookup_write_ne _ _ _ _ (Ne.symm htemp), hsrc]
  · exact merge_pdfs_eq reader _ (render_length make_temp_config reader.length)

/-- C2 amended witness: a one-page document; on disk the source is
untouched, in memory its page has become the merged page. -/
theorem C2_amended_witness :
    (∃ fsOut,
        enumerate_file ⟨[("d/a.pdf", [[DrawOp.raw 7]])], []⟩ "d/a.pdf" true true =
          Except.ok fsOut ∧
        fsOut.lookup "d/a.pdf" = some [[DrawOp.raw 7]]) ∧
    merge_pdfs [[DrawOp.raw 7]] (NumberPDF.render make_temp_config 1) =
      some (List.zipWith (fun p q => p ++ q) [[DrawOp.raw 7]]
              (NumberPDF.render make_temp_config 1),
            List.zipWith (fun p q => p ++ q) [[DrawOp.raw 7]]
              (NumberPDF.render make_temp_config 1)) := by
  have h := C2_amended_disk_source_immutable_memory_pages_mutated
    ⟨[("d/a.pdf", [[DrawOp.raw 7]])], []⟩ "d/a.pdf" [[DrawOp.raw 7]]
    (by decide) (by decide) (by decide)
  simpa using h

/-- `true` exactly when the run escaped with the `IndexError` of
`reader.pages[index]` in `_merge_pdfs`. -/
def raisedIndexError : Except (Stage × FS) FS → Bool
  | Except.error (Stage.indexError, _) => true
  | _ => false

/-- C3: every index used by `_merge_pdfs` to access a source page is in
bounds: the numbering document is generated with exactly the source's page
count, so the merge of a reader with its rendered numbering document always
succeeds, and no run of `_enumerate_file` can escape with the out-of-bounds
`IndexError` — the result is never assembled from mismatched page counts. -/
theorem C3_merge_indices_in_bounds :
    (∀ reader : List Page,
      (merge_pdfs reader (NumberPDF.render make_temp_config reader.length)).isSome = true) ∧
    (∀ (fs : FS) (fp : String) (mergeOk saveOk : Bool),
      raisedIndexError (enumerate_file fs fp mergeOk saveOk) = false) := by
  constructor
  · intro reader
    rw [merge_pdfs_eq reader _ (render_length make_temp_config reader.length)]
    rfl
  · intro fs fp mergeOk saveOk
    unfold enumerate_file
    cases hsrc : fs.lookup fp with
    | none => rfl
    | some reader =>
      have hmerge := merge_pdfs_eq reader (NumberPDF.render make_temp_config reader.length)
        (render_length make_temp_config reader.length)
      cases mergeOk with
      | false => rfl
      | true =>
        simp only [lookup_write_self, hmerge]
        cases saveOk with
        | false => rfl
        | true =>
          simp only [save_pdf, makedirs_exist_ok]
          cases h1 : FS.lookup _ fp <;> cases h2 : FS.lookup _ (result_filepath fp) <;>
            simp [raisedIndexError]

/-- C4: for a source document with zero pages, `enumerate_file` completes
without error: the generator renders a zero-page numbering document, the
merge loop performs zero iterations, and an empty output document is still
written at the results path. -/
theorem C4_empty_document_pipeline (fs : FS) (fp : String)
    (hsrc : fs.lookup fp = some [])
    (htemp : temp_filepath fp ≠ fp) :
    NumberPDF.render make_temp_config 0 = [] ∧
    merge_pdfs [] [] = some ([], []) ∧
    ∃ fsOut, enumerate_file fs fp true true = Except.ok fsOut ∧
      fsOut.lookup (result_filepath fp) = some [] := by
  refine ⟨rfl, rfl, _, enumerate_file_ok fs fp [] hsrc htemp, ?_⟩
  exact lookup_write_self _ _ _

/-- C4 witness: a concrete zero-page source file. -/
theorem C4_empty_document_pipeline_witness :
    NumberPDF.render make_temp_config 0 = [] ∧
    merge_pdfs [] [] = some ([], []) ∧
    ∃ fsOut,
      enumerate_file ⟨[("d/a.pdf", [])], []⟩ "d/a.pdf" true true = Except.ok fsOut ∧
      fsOut.lookup (result_filepath "d/a.pdf") = some [] :=
  C4_empty_document_pipeline ⟨[("d/a.pdf", [])], []⟩ "d/a.pdf" (by decide) (by decide)

/-- C5: the temporary numbering file is deleted exactly when the merge step
succeeds: after a successful `enumerate_file` run the temporary file no
longer exists; the deletion happens before the save step, so when the save
step fails the temporary file has already been removed and no result file
exists; and when the merge step itself raises, the temporary file is not
deleted. -/
theorem C5_temp_file_cleanup (fs : FS) (fp : String) (reader : List Page)
    (hsrc : fs.lookup fp = some reader)
    (htemp : temp_filepath fp ≠ fp)
    (htr : temp_filepath fp ≠ result_filepath fp)
    (hres0 : fs.lookup (result_filepath fp) = none) :
    (∃ fsOut, enumerate_file fs fp true true = Except.ok fsOut ∧
        fsOut.lookup (temp_filepath fp) = none) ∧
    (∃ fsErr, enumerate_file fs fp true false = Except.error (Stage.saveError, fsErr) ∧
        fsErr.lookup (temp_filepath fp) = none ∧
        fsErr.lookup (result_filepath fp) = none) ∧
    (∃ fsErr, enumerate_file fs fp false true = Except.error (Stage.mergeError, fsErr) ∧
        fsErr.lookup (temp_filepath fp) =
          some (NumberPDF.render make_temp_config reader.length)) := by
  refine ⟨⟨_, enumerate_file_ok fs fp reader hsrc htemp, ?_⟩,
    ⟨_, enumerate_file_save_fail fs fp reader hsrc, ?_, ?_⟩,
    ⟨_, enumerate_file_merge_fail fs fp reader hsrc, lookup_write_self _ _ _⟩⟩
  · rw [lookup_write_ne _ _ _ _ htr, lookup_addDir, lookup_remove_self]
  · exact lookup_remove_self _ _
  · rw [lookup_remove_ne _ _ _ (Ne.symm htr),
      lookup_write_ne _ _ _ _ (Ne.symm htr), hres0]

/-- C5 witness: a concrete one-page file, run with a fault-free pipeline,
with a failing save, and with a failing merge. -/
theorem C5_temp_file_cleanup_witness :
    (∃ fsOut,
        enumerate_file ⟨[("d/a.pdf", [[DrawOp.raw 3]])], []⟩ "d/a.pdf" true true =
          Except.ok fsOut ∧
        fsOut.lookup (temp_filepath "d/a.pdf") = none) ∧
    (∃ fsErr,
        enumerate_file ⟨[("d/a.pdf", [[DrawOp.raw 3]])], []⟩ "d/a.pdf" true false =
          Except.error (Stage.saveError, fsErr) ∧
        fsErr.lookup (temp_filepath "d/a.pdf") = none ∧
        fsErr.lookup (result_filepath "d/a.pdf") = none) ∧
    (∃ fsErr,
        enumerate_file ⟨[("d/a.pdf", [[DrawOp.raw 3]])], []⟩ "d/a.pdf" false true =
          Except.error (Stage.mergeError, fsErr) ∧
        fsErr.lookup (temp_filepath "d/a.pdf") =
          some (NumberPDF.render make_temp_config 1)) := by
  have h := C5_temp_file_cleanup ⟨[("d/a.pdf", [[DrawOp.raw 3]])], []⟩ "d/a.pdf"
    [[DrawOp.raw 3]] (by decide) (by decide) (by decide) (by decide)
  simpa using h

/-- C7: for every processed file, the numbering page generator is invoked
with `page_count` equal to the source's page count, alignment center
(fpdf's `"C"`), the `"Arial"` font family, and font size 12 — `font_size`
explicitly overriding the generator's default of 14, the rest the
generator's own defaults.  The state right after the generation step holds
exactly that rendered document at the temporary path. -/
theorem C7_generator_invocation (fs : FS) (fp : String) (reader : List Page)
    (hsrc : fs.lookup fp = some reader) :
    make_temp_config.align = Align.C ∧
    make_temp_config.font_family = "Arial" ∧
    make_temp_config.font_size = 12 ∧
    NumberPDF.mk Align.C "Arial" 14 ≠ make_temp_config ∧
    enumerate_file fs fp false true =
      Except.error (Stage.mergeError,
        fs.write (temp_filepath fp)
          (NumberPDF.render make_temp_config reader.length)) := by
  exact ⟨rfl, rfl, rfl, by decide, enumerate_file_merge_fail fs fp reader hsrc⟩

/-- C7 witness: a concrete two-page file. -/
theorem C7_generator_invocation_witness :
    make_temp_config.align = Align.C ∧
    make_temp_config.font_family = "Arial" ∧
    make_temp_config.font_size = 12 ∧
    NumberPDF.mk Align.C "Arial" 14 ≠ make_temp_config ∧
    enumerate_file ⟨[("d/a.pdf", [[], []])], []⟩ "d/a.pdf" false true =
      Except.error (Stage.mergeError,
        FS.write ⟨[("d/a.pdf", [[], []])], []⟩ (temp_filepath "d/a.pdf")
          (NumberPDF.render make_temp_config 2)) := by
  have h := C7_generator_invocation ⟨[("d/a.pdf", [[], []])], []⟩ "d/a.pdf" [[], []]
    (by decide)
  simpa using h

lemma str_ext {a b : String} (h : a.data = b.data) : a = b :=
  congrArg String.mk h

lemma mk_data (s : String) : String.mk s.data = s := by
  cases s
  rfl

lemma data_mk (l : List Char) : (String.mk l).data = l := rfl

lemma data_append_str (a b : String) : (a ++ b).data = a.data ++ b.data :=
  String.data_append a b

lemma data_eq_nil {s : String} : s.data = [] ↔ s = "" := by
  constructor
  · intro h
    apply str_ext
    simpa using h
  · intro h
    subst h
    rfl

lemma lastIndexOf_append (c : Char) (xs ys : List Char) :
    lastIndexOf c (xs ++ ys) =
      match lastIndexOf c ys with
      | some i => some (xs.length + i)
      | none => lastIndexOf c xs := by
  induction xs with
  | nil =>
    cases h : lastIndexOf c ys <;> simp [h, lastIndexOf]
  | cons x xs ih =>
    cases h : lastIndexOf c ys with
    | some i =>
      have h2 : lastIndexOf c (xs ++ ys) = some (xs.length + i) := by rw [ih, h]
      simp [lastIndexOf, h2, Nat.add_right_comm]
    | none =>
      have h2 : lastIndexOf c (xs ++ ys) = lastIndexOf c xs := by rw [ih, h]
      simp [lastIndexOf, h2]

lemma lastIndexOf_eq_none {c : Char} {l : List Char} (h : c ∉ l) :
    lastIndexOf c l = none := by
  induction l with
  | nil => rfl
  | cons x xs ih =>
    have hx : ¬ x = c := fun he => h (by rw [he]; exact List.mem_cons_self c xs)
    simp [lastIndexOf, ih (fun hm => h (List.mem_cons_of_mem _ hm)), hx]

lemma lastIndexOf_sep_append (D t : List Char) (ht : '/' ∉ t) :
    lastIndexOf '/' (D ++ '/' :: t) = some D.length := by
  rw [lastIndexOf_append]
  have h0 : lastIndexOf '/' ('/' :: t) = some 0 := by
    simp [lastIndexOf, lastIndexOf_eq_none ht]
  rw [h0]
  rfl

lemma basenameStart_concat (D t : List Char) (ht : '/' ∉ t) :
    basenameStart (D ++ '/' :: t) = D.length + 1 := by
  simp [basenameStart, lastIndexOf_sep_append D t ht]

/-- A nonempty string not ending in `/` has a last character distinct from
`/`; extract it together with the reversed-list decomposition. -/
lemma rev_head_of_not_slash_end {dir : String} (hD1 : dir ≠ "")
    (hD2 : strEndsWith dir "/" = false) :
    ∃ y ys, dir.data.reverse = y :: ys ∧ y ≠ '/' := by
  cases hrev : dir.data.reverse with
  | nil =>
    exfalso
    exact hD1 (data_eq_nil.mp (List.reverse_eq_nil_iff.mp hrev))
  | cons y ys =>
    refine ⟨y, ys, rfl, ?_⟩
    intro hy
    subst hy
    have hT : strEndsWith dir "/" = true := by
      show decide (dir.data.reverse.take 1 = ['/']) = true
      rw [hrev]
      simp
    rw [hT] at hD2
    cases hD2

lemma dirname_concat (dir : String) (t : List Char)
    (hD1 : dir ≠ "") (hD2 : strEndsWith dir "/" = false)
    (ht : '/' ∉ t) :
    dirname (String.mk (dir.data ++ '/' :: t)) = dir := by
  obtain ⟨y, ys, hrev, hy⟩ := rev_head_of_not_slash_end hD1 hD2
  have hmem : y ∈ dir.data := by
    rw [← List.mem_reverse, hrev]
    exact List.mem_cons_self y ys
  have htake : (dir.data ++ '/' :: t).take (dir.data.length + 1) =
      dir.data ++ ['/'] := by
    rw [List.take_append]
    rfl
  have hany : (dir.data ++ ['/']).any (fun c => c ≠ '/') = true := by
    rw [List.any_eq_true]
    exact ⟨y, List.mem_append_left _ hmem, by simpa using hy⟩
  have hcond : dir.data ++ ['/'] ≠ [] := by simp
  simp only [dirname, data_mk, basenameStart_concat dir.data t ht, htake]
  rw [if_pos ⟨hcond, hany⟩]
  have hdrop : ((dir.data ++ ['/']).reverse.dropWhile (fun c => c = '/')).reverse
      = dir.data := by
    have h1 : (dir.data ++ ['/']).reverse = '/' :: (y :: ys) := by
      rw [List.reverse_append, hrev]
      rfl
    have h2 : List.dropWhile (fun c => decide (c = '/')) ('/' :: y :: ys) = y :: ys := by
      rw [List.dropWhile_cons, if_pos (by simp), List.dropWhile_cons,
        if_neg (by simpa using hy)]
    rw [h1, h2, ← hrev, List.reverse_reverse]
  rw [hdrop, mk_data]

lemma basename_concat (D t : List Char) (ht : '/' ∉ t) :
    basename (String.mk (D ++ '/' :: t)) = String.mk t := by
  simp only [basename, data_mk, basenameStart_concat D t ht]
  rw [List.drop_append]
  rfl

lemma splitext_pdf (name : String) (hN1 : name ≠ "")
    (hdot : '.' ∉ name.data) (hslash : '/' ∉ name.data) :
    splitext (String.mk (name.data ++ ['.', 'p', 'd', 'f'])) =
      (name, String.mk ['.', 'p', 'd', 'f']) := by
  have hslash2 : '/' ∉ name.data ++ ['.', 'p', 'd', 'f'] := by
    intro hm
    rcases List.mem_append.mp hm with hm | hm
    · exact hslash hm
    · simp at hm
  have hN : name.data ≠ [] := fun h => hN1 (data_eq_nil.mp h)
  obtain ⟨y, ys, hy⟩ := List.exists_cons_of_ne_nil hN
  have hbs : basenameStart (name.data ++ ['.', 'p', 'd', 'f']) = 0 := by
    simp [basenameStart, lastIndexOf_eq_none hslash2]
  have hdotIdx : lastIndexOf '.' (name.data ++ ['.', 'p', 'd', 'f']) =
      some name.data.length := by
    rw [lastIndexOf_append]
    have : lastIndexOf '.' ['.', 'p', 'd', 'f'] = some 0 := by decide
    rw [this]
    rfl
  have hymem : y ∈ name.data := by rw [hy]; exact List.mem_cons_self y ys
  have hyne : ¬ y = '.' := fun he => hdot (he ▸ hymem)
  have hany : ((name.data ++ ['.', 'p', 'd', 'f']).take name.data.length).any
      (fun c => c ≠ '.') = true := by
    rw [List.take_left, List.any_eq_true]
    exact ⟨y, hymem, by simpa using hyne⟩
  simp only [splitext, data_mk, hbs, hdotIdx, List.drop_zero, Nat.sub_zero]
  rw [if_pos ⟨Nat.zero_le _, hany⟩]
  rw [List.take_left, List.drop_left, mk_data]

lemma path_join_no_slash (a b : String) (ha1 : a ≠ "") (ha2 : strEndsWith a "/" = false)
    (hb : strStartsWith b "/" = false) : path_join a b = a ++ "/" ++ b := by
  simp [path_join, hb, ha1, ha2]

/-- Re-create a directory that was just created: the second `addDir` is a
no-op. -/
lemma addDir_idem (fs : FS) (d : String) : (fs.addDir d).addDir d = fs.addDir d := by
  by_cases h : d ∈ fs.dirs <;> simp [FS.addDir, h]

lemma decomp_filepath (dir name : String) :
    dir ++ "/" ++ name ++ ".pdf" =
      String.mk (dir.data ++ '/' :: (name.data ++ ['.', 'p', 'd', 'f'])) := by
  apply str_ext
  have e1 : ("/" : String).data = ['/'] := rfl
  have e2 : (".pdf" : String).data = ['.', 'p', 'd', 'f'] := rfl
  simp [data_append_str, e1, e2, data_mk]

/-- C6: for every input file `<dir>/<name>.pdf` (with a well-formed `dir`
not ending in a slash and a plain `name` free of separators and dots), the
merged output is written exactly at `<dir>/results/<name>_enumerated.pdf`,
and the `results` directory creation is idempotent and raises no error when
the directory already exists. -/
theorem C6_result_path_and_idempotent_mkdir (dir name : String)
    (hD1 : dir ≠ "") (hD2 : strEndsWith dir "/" = false)
    (hN1 : name ≠ "") (hNs : '/' ∉ name.data) (hNd : '.' ∉ name.data) :
    result_filepath (dir ++ "/" ++ name ++ ".pdf") =
      dir ++ "/results/" ++ name ++ "_enumerated.pdf" ∧
    (∀ fs : FS, ∃ fs2,
      fs.makedirs (result_dir (dir ++ "/" ++ name ++ ".pdf")) true = Except.ok fs2 ∧
      fs2.makedirs (result_dir (dir ++ "/" ++ name ++ ".pdf")) true = Except.ok fs2) := by
  have htail : '/' ∉ name.data ++ ['.', 'p', 'd', 'f'] := by
    intro hm
    rcases List.mem_append.mp hm with hm | hm
    · exact hNs hm
    · simp at hm
  have hdir : dirname (dir ++ "/" ++ name ++ ".pdf") = dir := by
    rw [decomp_filepath]
    exact dirname_concat dir _ hD1 hD2 htail
  have hbase : basename (dir ++ "/" ++ name ++ ".pdf") =
      String.mk (name.data ++ ['.', 'p', 'd', 'f']) := by
    rw [decomp_filepath]
    exact basename_concat dir.data _ htail
  have hsplit : (splitext (basename (dir ++ "/" ++ name ++ ".pdf"))).1 = name := by
    rw [hbase, splitext_pdf name hN1 hNd hNs]
  have hrd : result_dir (dir ++ "/" ++ name ++ ".pdf") = dir ++ "/" ++ "results" := by
    rw [result_dir, hdir]
    exact path_join_no_slash dir "results" hD1 hD2 (by decide)
  constructor
  · rw [result_filepath, hrd, hsplit]
    obtain ⟨y, ys, hy⟩ := List.exists_cons_of_ne_nil
      (fun h => hN1 (data_eq_nil.mp h))
    have hyne : y ≠ '/' := fun he => hNs (by rw [hy, he]; exact List.mem_cons_self _ _)
    have hstart : strStartsWith (name ++ "_enumerated.pdf") "/" = false := by
      show decide ((name ++ "_enumerated.pdf").data.take 1 = ['/']) = false
      rw [data_append_str, hy]
      simp [hyne]
    have hne2 : dir ++ "/" ++ "results" ≠ "" := by
      intro h
      have h2 := congrArg String.data h
      rw [data_append_str, data_append_str] at h2
      simp at h2
    have hend2 : strEndsWith (dir ++ "/" ++ "results") "/" = false := by
      show decide ((dir ++ "/" ++ "results").data.reverse.take 1 = ['/']) = false
      rw [data_append_str, data_append_str, List.reverse_append]
      rfl
    rw [path_join_no_slash _ _ hne2 hend2 hstart]
    apply str_ext
    have e1 : ("/" : String).data = ['/'] := rfl
    have e2 : ("results" : String).data = ['r', 'e', 's', 'u', 'l', 't', 's'] := rfl
    have e3 : ("/results/" : String).data =
      ['/', 'r', 'e', 's', 'u', 'l', 't', 's', '/'] := rfl
    simp [data_append_str, e1, e2, e3]
  · intro fs
    exact ⟨fs.addDir (result_dir (dir ++ "/" ++ name ++ ".pdf")),
      makedirs_exist_ok _ _, by rw [makedirs_exist_ok, addDir_idem]⟩

/-- C6 witness: `docs/report.pdf` maps to `docs/results/report_enumerated.pdf`,
and creating the `results` directory twice on a concrete filesystem
succeeds both times with the same state. -/
theorem C6_result_path_witness :
    result_filepath ("docs" ++ "/" ++ "report" ++ ".pdf") =
      "docs" ++ "/results/" ++ "report" ++ "_enumerated.pdf" ∧
    (∀ fs : FS, ∃ fs2,
      fs.makedirs (result_dir ("docs" ++ "/" ++ "report" ++ ".pdf")) true = Except.ok fs2 ∧
      fs2.makedirs (result_dir ("docs" ++ "/" ++ "report" ++ ".pdf")) true = Except.ok fs2) :=
  C6_result_path_and_idempotent_mkdir "docs" "report"
    (by decide) (by decide) (by decide) (by decide) (by decide)

/-- C8: `_find_all_files` returns exactly the paths in the folder that match
the `*.pdf` glob pattern, non-recursively, and is idempotent: on two
listings of an unchanged folder (possibly in different filesystem-native
orders) it returns the same set of paths. -/
theorem C8_find_all_files_glob_and_idempotent (folder_path : String) :
    (∀ (entries : List String) (p : String),
      p ∈ find_all_files folder_path entries ↔
        ∃ nm, nm ∈ entries ∧ globMatchPdf nm = true ∧ p = path_join folder_path nm) ∧
    (∀ entries1 entries2 : List String, entries1.Perm entries2 →
      (find_all_files folder_path entries1).Perm (find_all_files folder_path entries2)) := by
  constructor
  · intro entries p
    simp only [find_all_files, List.mem_map, List.mem_filter]
    constructor
    · rintro ⟨nm, ⟨h1, h2⟩, h3⟩
      exact ⟨nm, h1, h2, h3.symm⟩
    · rintro ⟨nm, h1, h2, h3⟩
      exact ⟨nm, ⟨h1, h2⟩, h3.symm⟩
  · intro entries1 entries2 hperm
    exact (hperm.filter globMatchPdf).map _

/-- C8 witness: a concrete folder listing with a pdf, a non-pdf and a hidden
pdf, listed in two different orders. -/
theorem C8_find_all_files_witness :
    ("d/a.pdf" ∈ find_all_files "d" ["a.pdf", "b.txt", ".h.pdf"] ↔
      ∃ nm, nm ∈ ["a.pdf", "b.txt", ".h.pdf"] ∧ globMatchPdf nm = true ∧
        "d/a.pdf" = path_join "d" nm) ∧
    (find_all_files "d" ["a.pdf", "b.txt", ".h.pdf"]).Perm
      (find_all_files "d" [".h.pdf", "a.pdf", "b.txt"]) :=
  ⟨(C8_find_all_files_glob_and_idempotent "d").1 ["a.pdf", "b.txt", ".h.pdf"] "d/a.pdf",
   (C8_find_all_files_glob_and_idempotent "d").2 _ _ (by decide)⟩

/-- C10: when a result file already exists at the result path, `_save_pdf`
succeeds anyway — opening with mode `"wb"` truncates and replaces it — so
re-running the pipeline silently overwrites the earlier result. -/
theorem C10_save_overwrites_existing_result (fs : FS) (pages old : List Page)
    (fp : String)
    (_hold : fs.lookup (result_filepath fp) = some old) :
    ∃ fs2, save_pdf fs pages fp = Except.ok (fs2, result_filepath fp) ∧
      fs2.lookup (result_filepath fp) = some pages := by
  refine ⟨(fs.addDir (result_dir fp)).write (result_filepath fp) pages, ?_,
    lookup_write_self _ _ _⟩
  simp [save_pdf, makedirs_exist_ok]

/-- C10 witness: a filesystem that already holds a result file for
`d/a.pdf`; saving replaces its pages. -/
theorem C10_save_overwrites_witness :
    ∃ fs2,
      save_pdf ⟨[(result_filepath "d/a.pdf", [[DrawOp.raw 1]])], ["d/results"]⟩
          [[DrawOp.raw 2]] "d/a.pdf" =
        Except.ok (fs2, result_filepath "d/a.pdf") ∧
      fs2.lookup (result_filepath "d/a.pdf") = some [[DrawOp.raw 2]] :=
  C10_save_overwrites_existing_result
    ⟨[(result_filepath "d/a.pdf", [[DrawOp.raw 1]])], ["d/results"]⟩
    [[DrawOp.raw 2]] [[DrawOp.raw 1]] "d/a.pdf" (by simp [FS.lookup, lookupA])

/-! SHA-256 (FIPS 180-4) over byte lists, as computed by
`hashlib.sha256(f.read()).hexdigest()` in `_get_file_hash`. -/

/-- Truncate to a 32-bit word. -/
def w32 (x : Nat) : Nat := x % 4294967296

/-- Right-rotation of a 32-bit word. -/
def rotr32 (n x : Nat) : Nat := x / 2 ^ n + x % 2 ^ n * 2 ^ (32 - n)

def bsig0 (x : Nat) : Nat := rotr32 2 x ^^^ rotr32 13 x ^^^ rotr32 22 x

def bsig1 (x : Nat) : Nat := rotr32 6 x ^^^ rotr32 11 x ^^^ rotr32 25 x

def ssig0 (x : Nat) : Nat := rotr32 7 x ^^^ rotr32 18 x ^^^ x / 2 ^ 3

def ssig1 (x : Nat) : Nat := rotr32 17 x ^^^ rotr32 19 x ^^^ x / 2 ^ 10

def chf (x y z : Nat) : Nat := x &&& y ^^^ ((x ^^^ 4294967295) &&& z)

def majf (x y z : Nat) : Nat := x &&& y ^^^ (x &&& z) ^^^ (y &&& z)

/-- The 64 SHA-256 round constants, in decimal. -/
def K256 : List Nat :=
  [1116352408, 1899447441, 3049323471, 3921009573, 961987163,
   1508970993, 2453635748, 2870763221, 3624381080, 310598401,
   607225278, 1426881987, 1925078388, 2162078206, 2614888103,
   3248222580, 3835390401, 4022224774, 264347078, 604807628,
   770255983, 1249150122, 1555081692, 1996064986, 2554220882,
   2821834349, 2952996808, 3210313671, 3336571891, 3584528711,
   113926993, 338241895, 666307205, 773529912, 1294757372,
   1396182291, 1695183700, 1986661051, 2177026350, 2456956037,
   2730485921, 2820302411, 3259730800, 3345764771, 3516065817,
   3600352804, 4094571909, 275423344, 430227734, 506948616,
   659060556, 883997877, 958139571, 1322822218, 1537002063,
   1747873779, 1955562222, 2024104815, 2227730452, 2361852424,
   2428436474, 2756734187, 3204031479, 3329325298]

/-- The eight working variables of the compression function. -/
structure Hash8 where
  a : Nat
  b : Nat
  c : Nat
  d : Nat
  e : Nat
  f : Nat
  g : Nat
  h : Nat
deriving DecidableEq, Repr

/-- One round of the SHA-256 compression function; `kw` is the pair of the
scheduled word and the round constant. -/
def compressStep (st : Hash8) (kw : Nat × Nat) : Hash8 :=
  let t1 := w32 (st.h + bsig1 st.e + chf st.e st.f st.g + kw.1 + kw.2)
  let t2 := w32 (bsig0 st.a + majf st.a st.b st.c)
  { a := w32 (t1 + t2), b := st.a, c := st.b, d := st.c,
    e := w32 (st.d + t1), f := st.e, g := st.f, h := st.g }

/-- Next scheduled word, over the reversed schedule (most recent first). -/
def nextW (rws : List Nat) : Nat :=
  w32 (ssig1 (rws.getD 1 0) + rws.getD 6 0 + ssig0 (rws.getD 14 0) + rws.getD 15 0)

def extendW : Nat → List Nat → List Nat
  | 0, rws => rws
  | k + 1, rws => extendW k (nextW rws :: rws)

/-- The 64-word message schedule of a 16-word block. -/
def schedule (block16 : List Nat) : List Nat :=
  (extendW 48 block16.reverse).reverse

/-- Big-endian 32-bit word `i` of a 64-byte block. -/
def beWord (b : List Nat) (i : Nat) : Nat :=
  b.getD (4 * i) 0 * 16777216 + b.getD (4 * i + 1) 0 * 65536 +
    b.getD (4 * i + 2) 0 * 256 + b.getD (4 * i + 3) 0

def parseBlock (b : List Nat) : List Nat :=
  (List.range 16).map (beWord b)

/-- Process one 64-byte block. -/
def compressBlock (st : Hash8) (block : List Nat) : Hash8 :=
  let ws := schedule (parseBlock block)
  let fin := (List.zip ws K256).foldl compressStep st
  { a := w32 (st.a + fin.a), b := w32 (st.b + fin.b), c := w32 (st.c + fin.c),
    d := w32 (st.d + fin.d), e := w32 (st.e + fin.e), f := w32 (st.f + fin.f),
    g := w32 (st.g + fin.g), h := w32 (st.h + fin.h) }

/-- SHA-256 padding: `0x80`, zeros to 56 mod 64, then the bit length as a
big-endian 64-bit integer. -/
def padMsg (msg : List Nat) : List Nat :=
  let padZeros := (119 - msg.length % 64) % 64
  let bitLen := 8 * msg.length
  msg ++ 128 :: (List.replicate padZeros 0 ++
    (List.range 8).map (fun i => bitLen / 2 ^ (8 * (7 - i)) % 256))

/-- The SHA-256 initial hash value, in decimal. -/
def initH : Hash8 :=
  ⟨1779033703, 3144134277, 1013904242, 2773480762,
   1359893119, 2600822924, 528734635, 1541459225⟩

/-- A 32-bit word as four big-endian bytes. -/
def be4 (x : Nat) : List Nat := [x / 16777216 % 256, x / 65536 % 256, x / 256 % 256, x % 256]

/-- The SHA-256 digest (32 bytes) of a byte list. -/
def sha256 (msg : List Nat) : List Nat :=
  let padded := padMsg msg
  let blocks := (List.range (padded.length / 64)).map
    (fun i => (padded.drop (64 * i)).take 64)
  let hfin := blocks.foldl compressBlock initH
  [hfin.a, hfin.b, hfin.c, hfin.d, hfin.e, hfin.f, hfin.g, hfin.h].flatMap be4

def hexChar (n : Nat) : Char :=
  if n < 10 then Char.ofNat (48 + n) else Char.ofNat (87 + n)

def hexByte (b : Nat) : List Char := [hexChar (b / 16), hexChar (b % 16)]

/-- Lowercase hex encoding, as `hexdigest()` returns it. -/
def hexdigest (bytes : List Nat) : String := String.mk (bytes.flatMap hexByte)

/-- First binding for path `p` in an association list of byte files. -/
def lookupBytes : List (String × List Nat) → String → Option (List Nat)
  | [], _ => none
  | e :: es, p => if e.1 = p then some e.2 else lookupBytes es p

/-- `_get_file_hash(filepath)`: open the file, read its full byte content,
and return `hashlib.sha256(content).hexdigest()`. -/
def get_file_hash (files : List (String × List Nat)) (filepath : String) : Option String :=
  (lookupBytes files filepath).map (fun content => hexdigest (sha256 content))

/-- C9: `_get_file_hash` returns the hex-encoded SHA-256 digest of the
file's full byte content (the implementation matches the FIPS 180-4 test
vectors for the empty message and `"abc"`), and it is deterministic in that
content: any two files with byte-identical content, on any filesystems,
yield equal digests. -/
theorem C9_hash_is_sha256_and_deterministic
    (files1 files2 : List (String × List Nat)) (p1 p2 : String)
    (content : List Nat)
    (h1 : lookupBytes files1 p1 = some content)
    (h2 : lookupBytes files2 p2 = some content) :
    get_file_hash files1 p1 = some (hexdigest (sha256 content)) ∧
    get_file_hash files1 p1 = get_file_hash files2 p2 ∧
    hexdigest (sha256 []) =
      "e3b0c44298fc1c149afbf4c8996fb92427ae41e4649b934ca495991b7852b855" ∧
    hexdigest (sha256 [97, 98, 99]) =
      "ba7816bf8f01cfea414140de5dae2223b00361a396177a9cb410ff61f20015ad" := by
  refine ⟨?_, ?_, by decide, by decide⟩
  · rw [get_file_hash, h1]
    rfl
  · rw [get_file_hash, get_file_hash, h1, h2]

/-- C9 witness: two distinct files with identical three-byte content. -/
theorem C9_hash_witness :
    get_file_hash [("d/a.pdf", [1, 2, 3])] "d/a.pdf" =
      some (hexdigest (sha256 [1, 2, 3])) ∧
    get_file_hash [("d/a.pdf", [1, 2, 3])] "d/a.pdf" =
      get_file_hash [("e/b.pdf", [1, 2, 3]), ("e/c.pdf", [9])] "e/b.pdf" ∧
    hexdigest (sha256 []) =
      "e3b0c44298fc1c149afbf4c8996fb92427ae41e4649b934ca495991b7852b855" ∧
    hexdigest (sha256 [97, 98, 99]) =
      "ba7816bf8f01cfea414140de5dae2223b00361a396177a9cb410ff61f20015ad" :=
  C9_hash_is_sha256_and_deterministic
    [("d/a.pdf", [1, 2, 3])] [("e/b.pdf", [1, 2, 3]), ("e/c.pdf", [9])]
    "d/a.pdf" "e/b.pdf" [1, 2, 3] (by decide) (by decide)

end PdfEnum
